import Mathlib

/-!
Verification of the lane-line consolidation core of `project1.ipynb`:
slope-based segment classification (`draw_lines.slope`), length-weighted
per-frame aggregation (`LineProcessor`), a bounded FIFO history of
per-frame aggregates (`HistoricalLaneDataTracker`), and endpoint
reconstruction (`find_x2_from_slope` / `get_mean_line`).

Python floats are modelled as real numbers and Python's `int()`
truncation toward zero as `pyInt`. Raised exceptions are modelled as
`Option.none`: the `StatisticsError` of `statistics.mean` on an empty
list, and the `ZeroDivisionError` of `find_x2_from_slope` on a zero mean
slope (kept in the error-aware `find_x2_from_slope_zd` and
`get_mean_line_zd`; the total-division `find_x2_from_slope` and
`get_mean_line` agree with Python wherever the divisor is nonzero).
-/

namespace LaneLines

/-- A detected line segment `(x1, y1, x2, y2)` in image-pixel space. -/
structure Segment where
  x1 : ℝ
  y1 : ℝ
  x2 : ℝ
  y2 : ℝ

/-- `math.sqrt(math.pow(y2 - y1, 2) + math.pow(x2 - x1, 2))` from `add_line`. -/
noncomputable def segLength (x1 y1 x2 y2 : ℝ) : ℝ :=
  Real.sqrt ((y2 - y1) ^ 2 + (x2 - x1) ^ 2)

/-- Euclidean length of a segment. -/
noncomputable def lineLength (s : Segment) : ℝ :=
  segLength s.x1 s.y1 s.x2 s.y2

/-- The three parallel bounded lists of `HistoricalLaneDataTracker`. -/
structure HistoricalLaneDataTracker where
  slopes : List ℝ
  mean_x_values : List ℝ
  mean_y_values : List ℝ

/-- `self.number_of_slopes_to_remember = 40`. -/
def number_of_slopes_to_remember : ℕ := 40

/-- `HistoricalLaneDataTracker.update`: append the triple to the three
parallel lists; if the list length exceeds the capacity, pop the oldest
entry (index 0) from each list. -/
def HistoricalLaneDataTracker.update (t : HistoricalLaneDataTracker)
    (mean_x mean_y mean_slope : ℝ) : HistoricalLaneDataTracker :=
  let xs := t.mean_x_values ++ [mean_x]
  let ys := t.mean_y_values ++ [mean_y]
  let ss := t.slopes ++ [mean_slope]
  if number_of_slopes_to_remember < ss.length then
    ⟨ss.tail, xs.tail, ys.tail⟩
  else
    ⟨ss, xs, ys⟩

/-- `statistics.mean`: arithmetic mean of a list, raising (modelled as
`none`) on an empty list. -/
noncomputable def listMean (l : List ℝ) : Option ℝ :=
  if l.isEmpty then none else some (l.sum / l.length)

/-- `HistoricalLaneDataTracker.get_latest_lane_data`: the triple of the
three lists' arithmetic means; `none` models the `StatisticsError`
raised when queried with zero entries. -/
noncomputable def HistoricalLaneDataTracker.get_latest_lane_data
    (t : HistoricalLaneDataTracker) : Option (ℝ × ℝ × ℝ) :=
  match listMean t.mean_x_values, listMean t.mean_y_values, listMean t.slopes with
  | some x, some y, some s => some (x, y, s)
  | _, _, _ => none

/-- The running sums of `LineProcessor` (the per-frame lane accumulator).
The tracker it aliases is passed explicitly to `get_mean_line` instead. -/
structure LineProcessor where
  sum_of_slopes : ℝ
  sum_of_coordinates : ℝ × ℝ
  total_length : ℝ

/-- `LineProcessor.__init__`: all sums start at zero. -/
def LineProcessor.init : LineProcessor := ⟨0, (0, 0), 0⟩

/-- `LineProcessor.weighted_mid_point`: `((a + b) / 2.0) * weight`. -/
noncomputable def weighted_mid_point (a b weight : ℝ) : ℝ :=
  ((a + b) / 2) * weight

/-- `LineProcessor.add_line`: accumulate the length-weighted slope and
midpoint sums and the total length. -/
noncomputable def LineProcessor.add_line (p : LineProcessor)
    (x1 y1 x2 y2 slope : ℝ) : LineProcessor :=
  let line_length := segLength x1 y1 x2 y2
  { sum_of_slopes := p.sum_of_slopes + slope * line_length
    sum_of_coordinates :=
      (p.sum_of_coordinates.1 + weighted_mid_point x1 x2 line_length,
       p.sum_of_coordinates.2 + weighted_mid_point y1 y2 line_length)
    total_length := p.total_length + line_length }

/-- Python's `int()` on a float: truncation toward zero. -/
noncomputable def pyInt (r : ℝ) : ℤ :=
  if 0 ≤ r then ⌊r⌋ else ⌈r⌉

/-- `LineProcessor.find_x2_from_slope`: `int(x1 - ((y1 - y2) / current_slope))`,
rendered with total real division — accurate wherever `current_slope ≠ 0`;
`find_x2_from_slope_zd` keeps the `ZeroDivisionError` raised at zero. -/
noncomputable def find_x2_from_slope (x1 y1 y2 current_slope : ℝ) : ℤ :=
  pyInt (x1 - (y1 - y2) / current_slope)

/-- `LineProcessor.find_x2_from_slope` with Python's error semantics kept:
at `current_slope == 0` the division raises `ZeroDivisionError`, modelled
as `none`. -/
noncomputable def find_x2_from_slope_zd (x1 y1 y2 current_slope : ℝ) :
    Option ℤ :=
  if current_slope = 0 then none
  else some (pyInt (x1 - (y1 - y2) / current_slope))

/-- The first statement of `get_mean_line`: the tracker state after the
conditional push `if self.total_length != 0: self.lane_data_tracker.update(...)`
of the normalized aggregate. -/
noncomputable def pushedTracker (p : LineProcessor)
    (t : HistoricalLaneDataTracker) : HistoricalLaneDataTracker :=
  if p.total_length ≠ 0 then
    t.update (p.sum_of_coordinates.1 / p.total_length)
      (p.sum_of_coordinates.2 / p.total_length)
      (p.sum_of_slopes / p.total_length)
  else t

/-- `LineProcessor.get_mean_line`: if `total_length != 0` push the
normalized aggregate into the tracker, then reconstruct the lane line
from the tracker's mean. Returns the updated tracker (the Python code
mutates it in place) and the line, `none` when `get_latest_lane_data`
raises on an empty history. -/
noncomputable def LineProcessor.get_mean_line (p : LineProcessor)
    (t : HistoricalLaneDataTracker) (bottom_y top_y : ℝ) :
    HistoricalLaneDataTracker × Option (ℤ × ℝ × ℤ × ℝ) :=
  match (pushedTracker p t).get_latest_lane_data with
  | none => (pushedTracker p t, none)
  | some (latest_x, latest_y, latest_slope) =>
      (pushedTracker p t,
       some (find_x2_from_slope latest_x latest_y bottom_y latest_slope,
             bottom_y,
             find_x2_from_slope latest_x latest_y top_y latest_slope,
             top_y))

/-- `LineProcessor.get_mean_line` with both of its failure paths kept:
the `StatisticsError` of `get_latest_lane_data` on an empty history and
the `ZeroDivisionError` of `find_x2_from_slope` on a zero mean slope both
propagate as `none`, the conditional tracker mutation having already
happened. -/
noncomputable def LineProcessor.get_mean_line_zd (p : LineProcessor)
    (t : HistoricalLaneDataTracker) (bottom_y top_y : ℝ) :
    HistoricalLaneDataTracker × Option (ℤ × ℝ × ℤ × ℝ) :=
  match (pushedTracker p t).get_latest_lane_data with
  | none => (pushedTracker p t, none)
  | some (latest_x, latest_y, latest_slope) =>
      match find_x2_from_slope_zd latest_x latest_y bottom_y latest_slope,
            find_x2_from_slope_zd latest_x latest_y top_y latest_slope with
      | some bottom_x, some top_x =>
          (pushedTracker p t, some (bottom_x, bottom_y, top_x, top_y))
      | _, _ => (pushedTracker p t, none)

/-- `draw_lines.slope`: `1` when `x2 - x1 == 0`, else `(y2 - y1) / (x2 - x1)`. -/
noncomputable def lineSlope (x1 y1 x2 y2 : ℝ) : ℝ :=
  if x2 - x1 = 0 then 1 else (y2 - y1) / (x2 - x1)

/-- One iteration of the classification loop of `draw_lines`: a segment
with negative slope goes to the left processor, any other segment to the
right processor. -/
noncomputable def classifyStep (ps : LineProcessor × LineProcessor)
    (s : Segment) : LineProcessor × LineProcessor :=
  let current_slope := lineSlope s.x1 s.y1 s.x2 s.y2
  if current_slope < 0 then
    (ps.1.add_line s.x1 s.y1 s.x2 s.y2 current_slope, ps.2)
  else
    (ps.1, ps.2.add_line s.x1 s.y1 s.x2 s.y2 current_slope)

/-- The classification loop of `draw_lines` over all detected segments,
starting from two fresh processors. -/
noncomputable def classifyLines (lines : List Segment) :
    LineProcessor × LineProcessor :=
  lines.foldl classifyStep (LineProcessor.init, LineProcessor.init)

/-- The region-of-interest polygon (four vertices), from which
`draw_lines` reads the per-lane bottom/top y-bounds. -/
structure AreaOfInterest where
  p0 : ℝ × ℝ
  p1 : ℝ × ℝ
  p2 : ℝ × ℝ
  p3 : ℝ × ℝ

/-- `draw_lines`: classify the segments, reconstruct the left lane
(bounds from vertices 0 and 1) then the right lane (vertices 3 and 2).
A raised `StatisticsError` aborts the frame (`none`), after the left
tracker was already mutated, exactly as the Python exception would. -/
noncomputable def draw_lines (left_tracker right_tracker : HistoricalLaneDataTracker)
    (lines : List Segment) (area : AreaOfInterest) :
    Option (HistoricalLaneDataTracker × HistoricalLaneDataTracker ×
            (ℤ × ℝ × ℤ × ℝ) × (ℤ × ℝ × ℤ × ℝ)) :=
  let ps := classifyLines lines
  let leftRes := ps.1.get_mean_line left_tracker area.p0.2 area.p1.2
  match leftRes.2 with
  | none => none
  | some left_line =>
    let rightRes := ps.2.get_mean_line right_tracker area.p3.2 area.p2.2
    match rightRes.2 with
    | none => none
    | some right_line => some (leftRes.1, rightRes.1, left_line, right_line)

/-! Folded forms of the two mutation loops, used to state properties over
arbitrary finite call sequences. -/

/-- `add_line` applied over a list of (segment, slope) arguments. -/
noncomputable def addLines (p : LineProcessor) (l : List (Segment × ℝ)) :
    LineProcessor :=
  l.foldl (fun q sp => q.add_line sp.1.x1 sp.1.y1 sp.1.x2 sp.1.y2 sp.2) p

/-- `update` applied over a list of `(x, y, slope)` triples. -/
def pushAll (t : HistoricalLaneDataTracker) (l : List (ℝ × ℝ × ℝ)) :
    HistoricalLaneDataTracker :=
  l.foldl (fun t2 v => t2.update v.1 v.2.1 v.2.2) t

/-- A tracker with no history (its state right after `__init__`). -/
def emptyTracker : HistoricalLaneDataTracker := ⟨[], [], []⟩

/-- The tracker whose parallel lists hold exactly the `(x, y, slope)`
triples of `l`, in order. -/
def mkTracker (l : List (ℝ × ℝ × ℝ)) : HistoricalLaneDataTracker :=
  ⟨l.map (fun v => v.2.2), l.map (fun v => v.1), l.map (fun v => v.2.1)⟩

/-! ### Basic lemmas about the accumulator fold -/

lemma segLength_nonneg (x1 y1 x2 y2 : ℝ) : 0 ≤ segLength x1 y1 x2 y2 :=
  Real.sqrt_nonneg _

lemma addLines_total_length (l : List (Segment × ℝ)) (p : LineProcessor) :
    (addLines p l).total_length =
      p.total_length + (l.map (fun sp => lineLength sp.1)).sum := by
  induction l generalizing p with
  | nil => simp [addLines]
  | cons a l ih =>
      simp only [addLines, List.foldl_cons, List.map_cons, List.sum_cons] at *
      rw [ih]
      simp [LineProcessor.add_line, lineLength]
      ring

lemma addLines_sum_of_slopes (l : List (Segment × ℝ)) (p : LineProcessor) :
    (addLines p l).sum_of_slopes =
      p.sum_of_slopes + (l.map (fun sp => sp.2 * lineLength sp.1)).sum := by
  induction l generalizing p with
  | nil => simp [addLines]
  | cons a l ih =>
      simp only [addLines, List.foldl_cons, List.map_cons, List.sum_cons] at *
      rw [ih]
      simp [LineProcessor.add_line, lineLength]
      ring

lemma addLines_coord_x (l : List (Segment × ℝ)) (p : LineProcessor) :
    (addLines p l).sum_of_coordinates.1 =
      p.sum_of_coordinates.1 +
        (l.map (fun sp => ((sp.1.x1 + sp.1.x2) / 2) * lineLength sp.1)).sum := by
  induction l generalizing p with
  | nil => simp [addLines]
  | cons a l ih =>
      simp only [addLines, List.foldl_cons, List.map_cons, List.sum_cons] at *
      rw [ih]
      simp [LineProcessor.add_line, weighted_mid_point, lineLength]
      ring

lemma addLines_coord_y (l : List (Segment × ℝ)) (p : LineProcessor) :
    (addLines p l).sum_of_coordinates.2 =
      p.sum_of_coordinates.2 +
        (l.map (fun sp => ((sp.1.y1 + sp.1.y2) / 2) * lineLength sp.1)).sum := by
  induction l generalizing p with
  | nil => simp [addLines]
  | cons a l ih =>
      simp only [addLines, List.foldl_cons, List.map_cons, List.sum_cons] at *
      rw [ih]
      simp [LineProcessor.add_line, weighted_mid_point, lineLength]
      ring

/-! ### The FIFO window shape of the history tracker -/

lemma map_append_single_tail (f : ℝ × ℝ × ℝ → ℝ) (l : List (ℝ × ℝ × ℝ))
    (v : ℝ × ℝ × ℝ) : (l.map f ++ [f v]).tail = ((l ++ [v]).tail).map f := by
  rw [show l.map f ++ [f v] = (l ++ [v]).map f by simp, List.map_tail]

lemma update_mkTracker (l : List (ℝ × ℝ × ℝ)) (v : ℝ × ℝ × ℝ) :
    (mkTracker l).update v.1 v.2.1 v.2.2 =
      if number_of_slopes_to_remember < l.length + 1 then
        mkTracker ((l ++ [v]).tail)
      else
        mkTracker (l ++ [v]) := by
  simp only [HistoricalLaneDataTracker.update, mkTracker, List.length_append,
    List.length_map, List.length_singleton]
  by_cases h : number_of_slopes_to_remember < l.length + 1
  · rw [if_pos h, if_pos h]
    rw [map_append_single_tail, map_append_single_tail, map_append_single_tail]
  · rw [if_neg h, if_neg h]
    simp

lemma pushAll_append_single (t : HistoricalLaneDataTracker)
    (l : List (ℝ × ℝ × ℝ)) (v : ℝ × ℝ × ℝ) :
    pushAll t (l ++ [v]) = (pushAll t l).update v.1 v.2.1 v.2.2 := by
  simp [pushAll, List.foldl_append]

lemma pushAll_empty_window (l : List (ℝ × ℝ × ℝ)) :
    pushAll emptyTracker l =
      mkTracker (l.drop (l.length - number_of_slopes_to_remember)) := by
  induction l using List.reverseRecOn with
  | nil => simp [pushAll, emptyTracker, mkTracker]
  | append_singleton l v ih =>
      rw [pushAll_append_single, ih, update_mkTracker]
      by_cases h : number_of_slopes_to_remember ≤ l.length
      · have hlen : (l.drop (l.length - number_of_slopes_to_remember)).length =
            number_of_slopes_to_remember := by
          rw [List.length_drop]; omega
        rw [if_pos (by rw [hlen]; omega)]
        have hne : l.drop (l.length - number_of_slopes_to_remember) ≠ [] := by
          intro hnil
          rw [hnil] at hlen
          simp [number_of_slopes_to_remember] at hlen
        rw [List.tail_append_singleton_of_ne_nil hne, List.tail_drop]
        have h2 : (l ++ [v]).length - number_of_slopes_to_remember =
            (l.length - number_of_slopes_to_remember) + 1 := by
          simp only [List.length_append, List.length_singleton]; omega
        rw [h2, List.drop_append_of_le_length
          (by simp only [number_of_slopes_to_remember] at h ⊢; omega)]
      · rw [if_neg (by rw [List.length_drop]; omega)]
        have h1 : l.length - number_of_slopes_to_remember = 0 := by omega
        have h2 : (l ++ [v]).length - number_of_slopes_to_remember = 0 := by
          simp only [List.length_append, List.length_singleton]; omega
        rw [h1, h2, List.drop_zero, List.drop_zero]

/-! ### Reading `get_mean_line` -/

lemma get_mean_line_fst (p : LineProcessor) (t : HistoricalLaneDataTracker)
    (yb yt : ℝ) : (p.get_mean_line t yb yt).1 = pushedTracker p t := by
  unfold LineProcessor.get_mean_line
  cases h : (pushedTracker p t).get_latest_lane_data with
  | none => rfl
  | some v => rcases v with ⟨x, y, s⟩; rfl

lemma get_mean_line_snd (p : LineProcessor) (t : HistoricalLaneDataTracker)
    (yb yt mx my ms : ℝ)
    (h : (pushedTracker p t).get_latest_lane_data = some (mx, my, ms)) :
    (p.get_mean_line t yb yt).2 =
      some (find_x2_from_slope mx my yb ms, yb,
            find_x2_from_slope mx my yt ms, yt) := by
  unfold LineProcessor.get_mean_line
  rw [h]

lemma get_mean_line_snd_none (p : LineProcessor) (t : HistoricalLaneDataTracker)
    (yb yt : ℝ)
    (h : (pushedTracker p t).get_latest_lane_data = none) :
    (p.get_mean_line t yb yt).2 = none := by
  unfold LineProcessor.get_mean_line
  rw [h]

lemma get_latest_mkTracker (l : List (ℝ × ℝ × ℝ)) (h : l ≠ []) :
    (mkTracker l).get_latest_lane_data =
      some ((l.map (fun v => v.1)).sum / l.length,
            (l.map (fun v => v.2.1)).sum / l.length,
            (l.map (fun v => v.2.2)).sum / l.length) := by
  unfold HistoricalLaneDataTracker.get_latest_lane_data listMean mkTracker
  simp [List.isEmpty_iff, h]

/-! ### Claim theorems -/

/-- C2: pushing `K` triples, `1 ≤ K ≤ 40`, into an empty History Tracker
makes `get_latest_lane_data` return the unweighted arithmetic mean of
exactly those `K` triples, computed independently per component. -/
theorem history_mean_of_partial_window (l : List (ℝ × ℝ × ℝ))
    (hne : l ≠ []) (hlen : l.length ≤ 40) :
    (pushAll emptyTracker l).get_latest_lane_data =
      some ((l.map (fun v => v.1)).sum / l.length,
            (l.map (fun v => v.2.1)).sum / l.length,
            (l.map (fun v => v.2.2)).sum / l.length) := by
  rw [pushAll_empty_window]
  have h0 : l.length - number_of_slopes_to_remember = 0 := by
    simp only [number_of_slopes_to_remember]; omega
  rw [h0, List.drop_zero, get_latest_mkTracker l hne]

/-- Witness for C2: pushing the two triples `(1,2,3)` and `(5,6,7)`
yields the componentwise means `(3, 4, 5)`. -/
theorem history_mean_of_partial_window_witness :
    ([((1 : ℝ), (2 : ℝ), (3 : ℝ)), (5, 6, 7)] ≠ []) ∧
    ([((1 : ℝ), (2 : ℝ), (3 : ℝ)), (5, 6, 7)].length ≤ 40) ∧
    (pushAll emptyTracker [((1 : ℝ), (2 : ℝ), (3 : ℝ)), (5, 6, 7)]).get_latest_lane_data =
      some (3, 4, 5) := by
  refine ⟨by simp, by simp, ?_⟩
  have h := history_mean_of_partial_window
    [((1 : ℝ), (2 : ℝ), (3 : ℝ)), (5, 6, 7)] (by simp) (by simp)
  rw [h]
  norm_num

/-- C3: starting from an empty History Tracker, after any sequence of
`update` calls each of the three parallel lists holds at most 40 entries,
and after pushing 45 triples the tracker holds exactly the 40 most
recently pushed triples in insertion order (the 5 oldest evicted). -/
theorem history_window_capacity_fifo (l : List (ℝ × ℝ × ℝ)) :
    (pushAll emptyTracker l).slopes.length ≤ 40 ∧
    (pushAll emptyTracker l).mean_x_values.length ≤ 40 ∧
    (pushAll emptyTracker l).mean_y_values.length ≤ 40 ∧
    (l.length = 45 →
      (pushAll emptyTracker l).slopes.length = 40 ∧
      pushAll emptyTracker l = mkTracker (l.drop 5)) := by
  rw [pushAll_empty_window]
  refine ⟨?_, ?_, ?_, fun h45 => ⟨?_, ?_⟩⟩
  · simp only [mkTracker, List.length_map, List.length_drop,
      number_of_slopes_to_remember]
    omega
  · simp only [mkTracker, List.length_map, List.length_drop,
      number_of_slopes_to_remember]
    omega
  · simp only [mkTracker, List.length_map, List.length_drop,
      number_of_slopes_to_remember]
    omega
  · simp only [mkTracker, List.length_map, List.length_drop,
      number_of_slopes_to_remember, h45]
  · rw [h45]
    rfl

/-- Witness for C3: pushing 45 copies of `(1,2,3)` keeps exactly the last
40 of them. -/
theorem history_window_capacity_fifo_witness :
    (List.replicate 45 ((1 : ℝ), (2 : ℝ), (3 : ℝ))).length = 45 ∧
    (pushAll emptyTracker (List.replicate 45 ((1 : ℝ), (2 : ℝ), (3 : ℝ)))).slopes.length = 40 ∧
    pushAll emptyTracker (List.replicate 45 ((1 : ℝ), (2 : ℝ), (3 : ℝ))) =
      mkTracker ((List.replicate 45 ((1 : ℝ), (2 : ℝ), (3 : ℝ))).drop 5) := by
  refine ⟨by simp, ?_, ?_⟩
  · exact ((history_window_capacity_fifo _).2.2.2 (by simp)).1
  · exact ((history_window_capacity_fifo _).2.2.2 (by simp)).2

/-- C1: after adding any finite sequence of segments (with their slopes)
to a fresh accumulator, if `total_length > 0` then `get_mean_line` pushes
exactly the length-weighted means (midpoint-x, midpoint-y, slope) into
the history, and if `total_length = 0` it pushes nothing. -/
theorem aggregate_weighted_mean_push (l : List (Segment × ℝ))
    (t : HistoricalLaneDataTracker) (yb yt : ℝ) :
    (0 < (addLines LineProcessor.init l).total_length →
      ((addLines LineProcessor.init l).get_mean_line t yb yt).1 =
        t.update
          ((l.map (fun sp => ((sp.1.x1 + sp.1.x2) / 2) * lineLength sp.1)).sum /
            (l.map (fun sp => lineLength sp.1)).sum)
          ((l.map (fun sp => ((sp.1.y1 + sp.1.y2) / 2) * lineLength sp.1)).sum /
            (l.map (fun sp => lineLength sp.1)).sum)
          ((l.map (fun sp => sp.2 * lineLength sp.1)).sum /
            (l.map (fun sp => lineLength sp.1)).sum)) ∧
    ((addLines LineProcessor.init l).total_length = 0 →
      ((addLines LineProcessor.init l).get_mean_line t yb yt).1 = t) := by
  have htot : (addLines LineProcessor.init l).total_length =
      (l.map (fun sp => lineLength sp.1)).sum := by
    rw [addLines_total_length]; simp [LineProcessor.init]
  have hsl : (addLines LineProcessor.init l).sum_of_slopes =
      (l.map (fun sp => sp.2 * lineLength sp.1)).sum := by
    rw [addLines_sum_of_slopes]; simp [LineProcessor.init]
  have hcx : (addLines LineProcessor.init l).sum_of_coordinates.1 =
      (l.map (fun sp => ((sp.1.x1 + sp.1.x2) / 2) * lineLength sp.1)).sum := by
    rw [addLines_coord_x]; simp [LineProcessor.init]
  have hcy : (addLines LineProcessor.init l).sum_of_coordinates.2 =
      (l.map (fun sp => ((sp.1.y1 + sp.1.y2) / 2) * lineLength sp.1)).sum := by
    rw [addLines_coord_y]; simp [LineProcessor.init]
  constructor
  · intro hpos
    rw [get_mean_line_fst, pushedTracker, if_pos (by rw [htot] at *; exact ne_of_gt hpos)]
    rw [htot, hsl, hcx, hcy]
  · intro h0
    rw [get_mean_line_fst, pushedTracker, if_neg (fun hne => hne h0)]

/-- Witness for C1: a single segment `(0,0,3,4)` of length 5 with slope 2
pushes the triple `(3/2, 2, 2)` into the history. -/
theorem aggregate_weighted_mean_push_witness :
    0 < (addLines LineProcessor.init [(⟨0, 0, 3, 4⟩, 2)]).total_length ∧
    ((addLines LineProcessor.init [(⟨0, 0, 3, 4⟩, 2)]).get_mean_line
        emptyTracker 100 50).1 =
      emptyTracker.update (3 / 2) 2 2 := by
  have h5 : lineLength (⟨0, 0, 3, 4⟩ : Segment) = 5 := by
    unfold lineLength segLength
    rw [show (((4 : ℝ) - 0) ^ 2 + (3 - 0) ^ 2) = 5 ^ 2 by norm_num]
    exact Real.sqrt_sq (by norm_num)
  have hpos : 0 < (addLines LineProcessor.init [(⟨0, 0, 3, 4⟩, 2)]).total_length := by
    rw [addLines_total_length]
    simp [LineProcessor.init, h5]
  refine ⟨hpos, ?_⟩
  rw [(aggregate_weighted_mean_push [(⟨0, 0, 3, 4⟩, 2)] emptyTracker 100 50).1 hpos]
  simp [h5]
  norm_num

/-- C4: the classifier computes `slope = (y2-y1)/(x2-x1)` when `x2 ≠ x1`
and exactly `1` when `x2 = x1` (no error path); a segment goes to the
left accumulator iff its slope is negative, otherwise (including every
vertical segment) to the right one, so each segment lands in exactly one
lane. -/
theorem classifier_slope_policy (s : Segment) (lp rp : LineProcessor) :
    (s.x2 = s.x1 → lineSlope s.x1 s.y1 s.x2 s.y2 = 1) ∧
    (s.x2 ≠ s.x1 →
      lineSlope s.x1 s.y1 s.x2 s.y2 = (s.y2 - s.y1) / (s.x2 - s.x1)) ∧
    (lineSlope s.x1 s.y1 s.x2 s.y2 < 0 →
      classifyStep (lp, rp) s =
        (lp.add_line s.x1 s.y1 s.x2 s.y2 (lineSlope s.x1 s.y1 s.x2 s.y2), rp)) ∧
    (0 ≤ lineSlope s.x1 s.y1 s.x2 s.y2 →
      classifyStep (lp, rp) s =
        (lp, rp.add_line s.x1 s.y1 s.x2 s.y2 (lineSlope s.x1 s.y1 s.x2 s.y2))) ∧
    (s.x2 = s.x1 →
      classifyStep (lp, rp) s = (lp, rp.add_line s.x1 s.y1 s.x2 s.y2 1)) := by
  have hv : s.x2 = s.x1 → lineSlope s.x1 s.y1 s.x2 s.y2 = 1 := by
    intro h
    unfold lineSlope
    rw [if_pos (sub_eq_zero.mpr h)]
  refine ⟨hv, ?_, ?_, ?_, ?_⟩
  · intro h
    unfold lineSlope
    rw [if_neg (fun h0 => h (sub_eq_zero.mp h0))]
  · intro h
    unfold classifyStep
    rw [if_pos h]
  · intro h
    unfold classifyStep
    rw [if_neg (not_lt.mpr h)]
  · intro h
    unfold classifyStep
    rw [hv h, if_neg (by norm_num)]

/-- Witness for C4: the vertical segment `(5,0,5,7)` gets slope exactly 1
and is classified to the right lane. -/
theorem classifier_slope_policy_witness :
    (⟨5, 0, 5, 7⟩ : Segment).x2 = (⟨5, 0, 5, 7⟩ : Segment).x1 ∧
    lineSlope 5 0 5 7 = 1 ∧
    classifyStep (LineProcessor.init, LineProcessor.init) ⟨5, 0, 5, 7⟩ =
      (LineProcessor.init, LineProcessor.init.add_line 5 0 5 7 1) :=
  ⟨rfl,
   (classifier_slope_policy ⟨5, 0, 5, 7⟩ LineProcessor.init LineProcessor.init).1 rfl,
   (classifier_slope_policy ⟨5, 0, 5, 7⟩ LineProcessor.init
      LineProcessor.init).2.2.2.2 rfl⟩

/-! ### Convex-combination bounds for the weighted slope mean -/

lemma sum_lengths_nonneg (l : List (Segment × ℝ)) :
    0 ≤ (l.map (fun sp => lineLength sp.1)).sum := by
  apply List.sum_nonneg
  intro x hx
  rcases List.mem_map.mp hx with ⟨sp, _, rfl⟩
  exact segLength_nonneg _ _ _ _

lemma sum_lengths_pos (l : List (Segment × ℝ)) (hne : l ≠ [])
    (hpos : ∀ sp ∈ l, 0 < lineLength sp.1) :
    0 < (l.map (fun sp => lineLength sp.1)).sum := by
  cases l with
  | nil => exact absurd rfl hne
  | cons a l =>
      simp only [List.map_cons, List.sum_cons]
      exact add_pos_of_pos_of_nonneg (hpos a (List.mem_cons_self a l))
        (sum_lengths_nonneg l)

lemma weighted_slope_sum_lower (l : List (Segment × ℝ)) (m : ℝ)
    (hm : ∀ sp ∈ l, m ≤ sp.2) :
    m * (l.map (fun sp => lineLength sp.1)).sum ≤
      (l.map (fun sp => sp.2 * lineLength sp.1)).sum := by
  induction l with
  | nil => simp
  | cons a l ih =>
      simp only [List.map_cons, List.sum_cons, mul_add]
      have h1 : m * lineLength a.1 ≤ a.2 * lineLength a.1 :=
        mul_le_mul_of_nonneg_right (hm a (List.mem_cons_self a l))
          (segLength_nonneg _ _ _ _)
      have h2 := ih (fun sp hsp => hm sp (List.mem_cons_of_mem a hsp))
      exact add_le_add h1 h2

lemma weighted_slope_sum_upper (l : List (Segment × ℝ)) (M : ℝ)
    (hM : ∀ sp ∈ l, sp.2 ≤ M) :
    (l.map (fun sp => sp.2 * lineLength sp.1)).sum ≤
      M * (l.map (fun sp => lineLength sp.1)).sum := by
  induction l with
  | nil => simp
  | cons a l ih =>
      simp only [List.map_cons, List.sum_cons, mul_add]
      have h1 : a.2 * lineLength a.1 ≤ M * lineLength a.1 :=
        mul_le_mul_of_nonneg_right (hM a (List.mem_cons_self a l))
          (segLength_nonneg _ _ _ _)
      have h2 := ih (fun sp hsp => hM sp (List.mem_cons_of_mem a hsp))
      exact add_le_add h1 h2

/-- C8: for a non-empty list of segments of strictly positive length, the
accumulator's weighted mean slope `sum_of_slopes / total_length` lies in
the interval `[min of the added slopes, max of the added slopes]`. -/
theorem weighted_mean_slope_convex (l : List (Segment × ℝ)) (m M : ℝ)
    (hne : l ≠ [])
    (hpos : ∀ sp ∈ l, 0 < lineLength sp.1)
    (_hmem_m : m ∈ l.map (fun sp => sp.2))
    (hm : ∀ x ∈ l.map (fun sp => sp.2), m ≤ x)
    (_hmem_M : M ∈ l.map (fun sp => sp.2))
    (hM : ∀ x ∈ l.map (fun sp => sp.2), x ≤ M) :
    m ≤ (addLines LineProcessor.init l).sum_of_slopes /
          (addLines LineProcessor.init l).total_length ∧
    (addLines LineProcessor.init l).sum_of_slopes /
        (addLines LineProcessor.init l).total_length ≤ M := by
  have htot : (addLines LineProcessor.init l).total_length =
      (l.map (fun sp => lineLength sp.1)).sum := by
    rw [addLines_total_length]; simp [LineProcessor.init]
  have hsl : (addLines LineProcessor.init l).sum_of_slopes =
      (l.map (fun sp => sp.2 * lineLength sp.1)).sum := by
    rw [addLines_sum_of_slopes]; simp [LineProcessor.init]
  have hT : 0 < (l.map (fun sp => lineLength sp.1)).sum :=
    sum_lengths_pos l hne hpos
  rw [htot, hsl]
  constructor
  · rw [le_div_iff₀ hT]
    exact weighted_slope_sum_lower l m
      (fun sp hsp => hm sp.2 (List.mem_map.mpr ⟨sp, hsp, rfl⟩))
  · rw [div_le_iff₀ hT]
    exact weighted_slope_sum_upper l M
      (fun sp hsp => hM sp.2 (List.mem_map.mpr ⟨sp, hsp, rfl⟩))

/-- Witness for C8: for the segments `(0,0,3,4)` with slope 2 and
`(0,0,4,3)` with slope 1 (both of length 5), the weighted mean slope lies
in `[1, 2]`. -/
theorem weighted_mean_slope_convex_witness :
    (∀ sp ∈ [((⟨0, 0, 3, 4⟩ : Segment), (2 : ℝ)), (⟨0, 0, 4, 3⟩, 1)],
        0 < lineLength sp.1) ∧
    1 ≤ (addLines LineProcessor.init
          [((⟨0, 0, 3, 4⟩ : Segment), (2 : ℝ)), (⟨0, 0, 4, 3⟩, 1)]).sum_of_slopes /
        (addLines LineProcessor.init
          [((⟨0, 0, 3, 4⟩ : Segment), (2 : ℝ)), (⟨0, 0, 4, 3⟩, 1)]).total_length ∧
    (addLines LineProcessor.init
          [((⟨0, 0, 3, 4⟩ : Segment), (2 : ℝ)), (⟨0, 0, 4, 3⟩, 1)]).sum_of_slopes /
        (addLines LineProcessor.init
          [((⟨0, 0, 3, 4⟩ : Segment), (2 : ℝ)), (⟨0, 0, 4, 3⟩, 1)]).total_length ≤ 2 := by
  have hpos : ∀ sp ∈ [((⟨0, 0, 3, 4⟩ : Segment), (2 : ℝ)), (⟨0, 0, 4, 3⟩, 1)],
      0 < lineLength sp.1 := by
    intro sp hsp
    simp only [List.mem_cons, List.not_mem_nil, or_false] at hsp
    rcases hsp with rfl | rfl <;>
      · simp only [lineLength, segLength]
        exact Real.sqrt_pos.mpr (by norm_num)
  have h := weighted_mean_slope_convex
    [((⟨0, 0, 3, 4⟩ : Segment), (2 : ℝ)), (⟨0, 0, 4, 3⟩, 1)] 1 2
    (by simp) hpos (by simp)
    (by intro x hx; simp at hx; rcases hx with rfl | rfl <;> norm_num)
    (by simp)
    (by intro x hx; simp at hx; rcases hx with rfl | rfl <;> norm_num)
  exact ⟨hpos, h.1, h.2⟩

/-! ### Empty-frame and empty-history behaviour -/

lemma get_latest_of_nonempty (t : HistoricalLaneDataTracker)
    (hx : t.mean_x_values ≠ []) (hy : t.mean_y_values ≠ [])
    (hs : t.slopes ≠ []) :
    t.get_latest_lane_data =
      some (t.mean_x_values.sum / t.mean_x_values.length,
            t.mean_y_values.sum / t.mean_y_values.length,
            t.slopes.sum / t.slopes.length) := by
  unfold HistoricalLaneDataTracker.get_latest_lane_data listMean
  simp [List.isEmpty_iff, hx, hy, hs]

lemma get_mean_line_zd_fst (p : LineProcessor) (t : HistoricalLaneDataTracker)
    (yb yt : ℝ) : (p.get_mean_line_zd t yb yt).1 = pushedTracker p t := by
  unfold LineProcessor.get_mean_line_zd
  cases h : (pushedTracker p t).get_latest_lane_data with
  | none => rfl
  | some v =>
      rcases v with ⟨x, y, s⟩
      dsimp only
      cases hb : find_x2_from_slope_zd x y yb s <;>
        cases ht2 : find_x2_from_slope_zd x y yt s <;> rfl

/-- Away from a zero mean slope the error-aware and the total-division
readings of `get_mean_line` coincide. -/
lemma get_mean_line_zd_agrees (p : LineProcessor)
    (t : HistoricalLaneDataTracker) (yb yt mx my ms : ℝ)
    (h : (pushedTracker p t).get_latest_lane_data = some (mx, my, ms))
    (hms : ms ≠ 0) :
    p.get_mean_line_zd t yb yt = p.get_mean_line t yb yt := by
  unfold LineProcessor.get_mean_line_zd LineProcessor.get_mean_line
  rw [h]
  dsimp only
  unfold find_x2_from_slope_zd find_x2_from_slope
  rw [if_neg hms, if_neg hms]

/-- C6 fails as stated: the reconstruction is not crash-free for every
nonempty history. The one-entry history `(x, y, slope) = (5, 0, 0)` —
exactly what a single prior horizontal right-lane segment `(0,0,10,0)`
leaves behind — has mean slope `0`, and on an empty frame
`find_x2_from_slope` raises `ZeroDivisionError` (`none`) instead of
returning a line. -/
theorem empty_frame_zero_mean_slope_raises :
    LineProcessor.init.total_length = 0 ∧
    (⟨[0], [5], [0]⟩ : HistoricalLaneDataTracker).slopes ≠ [] ∧
    (LineProcessor.init.get_mean_line_zd ⟨[0], [5], [0]⟩ 100 50).2 = none := by
  refine ⟨rfl, by simp, ?_⟩
  have hpush : pushedTracker LineProcessor.init ⟨[0], [5], [0]⟩ =
      ⟨[0], [5], [0]⟩ := by
    unfold pushedTracker
    rw [if_neg (fun hne => hne rfl)]
  have hlat : (⟨[0], [5], [0]⟩ :
      HistoricalLaneDataTracker).get_latest_lane_data = some (5, 0, 0) := by
    rw [get_latest_of_nonempty _ (by simp) (by simp) (by simp)]
    norm_num
  unfold LineProcessor.get_mean_line_zd
  rw [hpush, hlat]
  dsimp only
  unfold find_x2_from_slope_zd
  rw [if_pos rfl]

/-- C6 (amended): for a lane with zero segments this frame
(`total_length = 0`) whose History Tracker already holds entries,
`get_mean_line` pushes nothing (history unchanged); provided the
history's mean slope is nonzero it returns the line reconstructed from
the existing history mean — no failure, no zeroed line. (At mean slope
exactly `0`, reachable for the right lane, the reconstruction raises
`ZeroDivisionError` instead.) -/
theorem empty_frame_falls_back_to_history (p : LineProcessor)
    (t : HistoricalLaneDataTracker) (yb yt : ℝ)
    (h0 : p.total_length = 0)
    (hx : t.mean_x_values ≠ []) (hy : t.mean_y_values ≠ [])
    (hs : t.slopes ≠ [])
    (hslope : t.slopes.sum / t.slopes.length ≠ 0) :
    (p.get_mean_line_zd t yb yt).1 = t ∧
    (p.get_mean_line_zd t yb yt).2 =
      some (find_x2_from_slope (t.mean_x_values.sum / t.mean_x_values.length)
              (t.mean_y_values.sum / t.mean_y_values.length) yb
              (t.slopes.sum / t.slopes.length),
            yb,
            find_x2_from_slope (t.mean_x_values.sum / t.mean_x_values.length)
              (t.mean_y_values.sum / t.mean_y_values.length) yt
              (t.slopes.sum / t.slopes.length),
            yt) := by
  have hpush : pushedTracker p t = t := by
    unfold pushedTracker
    rw [if_neg (fun hne => hne h0)]
  have hlat : (pushedTracker p t).get_latest_lane_data =
      some (t.mean_x_values.sum / t.mean_x_values.length,
            t.mean_y_values.sum / t.mean_y_values.length,
            t.slopes.sum / t.slopes.length) := by
    rw [hpush]
    exact get_latest_of_nonempty t hx hy hs
  constructor
  · rw [get_mean_line_zd_fst, hpush]
  · unfold LineProcessor.get_mean_line_zd
    rw [hlat]
    dsimp only
    unfold find_x2_from_slope_zd
    rw [if_neg hslope, if_neg hslope]
    dsimp only
    unfold find_x2_from_slope
    rfl

/-- Witness for C6 (amended): a fresh accumulator against the one-entry
history `(x, y, slope) = (5, 95, -1)` (mean slope `-1 ≠ 0`) returns the
line reconstructed from that entry, leaving the history unchanged. -/
theorem empty_frame_falls_back_to_history_witness :
    LineProcessor.init.total_length = 0 ∧
    (⟨[-1], [5], [95]⟩ : HistoricalLaneDataTracker).slopes ≠ [] ∧
    ((⟨[-1], [5], [95]⟩ : HistoricalLaneDataTracker).slopes.sum /
      (⟨[-1], [5], [95]⟩ : HistoricalLaneDataTracker).slopes.length ≠ 0) ∧
    (LineProcessor.init.get_mean_line_zd ⟨[-1], [5], [95]⟩ 100 50).1 =
      (⟨[-1], [5], [95]⟩ : HistoricalLaneDataTracker) ∧
    (LineProcessor.init.get_mean_line_zd ⟨[-1], [5], [95]⟩ 100 50).2 =
      some (0, 100, 50, 50) := by
  have hsl : (⟨[-1], [5], [95]⟩ : HistoricalLaneDataTracker).slopes.sum /
      (⟨[-1], [5], [95]⟩ : HistoricalLaneDataTracker).slopes.length ≠ 0 := by
    simp
  have h := empty_frame_falls_back_to_history LineProcessor.init
    ⟨[-1], [5], [95]⟩ 100 50 rfl (by simp) (by simp) (by simp) hsl
  refine ⟨rfl, by simp, hsl, h.1, ?_⟩
  rw [h.2]
  norm_num [find_x2_from_slope, pyInt]

lemma get_latest_of_empty_x (t : HistoricalLaneDataTracker)
    (ht : t.mean_x_values = []) : t.get_latest_lane_data = none := by
  unfold HistoricalLaneDataTracker.get_latest_lane_data listMean
  rw [ht]
  simp

lemma get_mean_line_of_empty_all (p : LineProcessor) (yb yt : ℝ)
    (h0 : p.total_length = 0) :
    p.get_mean_line emptyTracker yb yt = (emptyTracker, none) := by
  have hpush : pushedTracker p emptyTracker = emptyTracker := by
    unfold pushedTracker
    rw [if_neg (fun hne => hne h0)]
  unfold LineProcessor.get_mean_line
  rw [hpush, get_latest_of_empty_x emptyTracker rfl]

lemma draw_lines_first_frame_no_segments (area : AreaOfInterest) :
    draw_lines emptyTracker emptyTracker [] area = none := by
  unfold draw_lines classifyLines
  rw [List.foldl_nil]
  dsimp only
  rw [get_mean_line_of_empty_all LineProcessor.init area.p0.2 area.p1.2 rfl]

/-- C7 (amended): a `get_latest_lane_data` query with zero entries is
surfaced to the caller as an error (the raised `StatisticsError`,
modelled `none`) and never silently defaults to a triple; but no caller
handles it: with an empty history and an empty frame `get_mean_line`
propagates the error (and leaves the tracker untouched), and `draw_lines`
aborts the whole frame. -/
theorem empty_history_query_surfaces_and_propagates :
    (∀ t : HistoricalLaneDataTracker, t.mean_x_values = [] →
      t.get_latest_lane_data = none) ∧
    (∀ (p : LineProcessor) (yb yt : ℝ), p.total_length = 0 →
      p.get_mean_line emptyTracker yb yt = (emptyTracker, none)) ∧
    (∀ area : AreaOfInterest,
      draw_lines emptyTracker emptyTracker [] area = none) :=
  ⟨get_latest_of_empty_x, get_mean_line_of_empty_all,
   draw_lines_first_frame_no_segments⟩

/-- Witness for C7 (amended): with both trackers empty and no segments,
the query error aborts the frame of the example region of interest from
the notebook. -/
theorem empty_history_query_surfaces_and_propagates_witness :
    emptyTracker.mean_x_values = [] ∧
    LineProcessor.init.total_length = 0 ∧
    emptyTracker.get_latest_lane_data = none ∧
    LineProcessor.init.get_mean_line emptyTracker 539 325 = (emptyTracker, none) ∧
    draw_lines emptyTracker emptyTracker []
      ⟨(50, 539), (440, 325), (510, 325), (910, 539)⟩ = none :=
  ⟨rfl, rfl,
   empty_history_query_surfaces_and_propagates.1 emptyTracker rfl,
   empty_history_query_surfaces_and_propagates.2.1 LineProcessor.init 539 325 rfl,
   empty_history_query_surfaces_and_propagates.2.2
     ⟨(50, 539), (440, 325), (510, 325), (910, 539)⟩⟩

/-- C7 fails as stated: an empty-history query must "not crash or halt
the session", but nothing in the code catches the raised
`StatisticsError` — on the very first frame with no detected segments it
escapes `draw_lines` and aborts frame processing (`none`), instead of the
frame producing lane lines. -/
theorem empty_history_query_halts_frame :
    ¬ draw_lines emptyTracker emptyTracker []
        ⟨(50, 539), (440, 325), (510, 325), (910, 539)⟩ ≠ none := by
  intro h
  exact h (draw_lines_first_frame_no_segments
    ⟨(50, 539), (440, 325), (510, 325), (910, 539)⟩)

/-! ### Repeated reconstruction -/

/-- C9 fails as stated: `get_mean_line` re-pushes a non-empty aggregate
on every call, so a second call in succession can move the history mean
and change the returned coordinates. For the accumulator
`(sum_of_slopes, sums, total_length) = (2, (0,0), 1)` against the
one-entry history `(0, 0, 1)`, the first call returns bottom/top x
`(66, 33)` and the second `(60, 30)`. -/
theorem reconstruct_twice_differs :
    ((⟨2, (0, 0), 1⟩ : LineProcessor).get_mean_line
        (((⟨2, (0, 0), 1⟩ : LineProcessor).get_mean_line
            ⟨[1], [0], [0]⟩ 100 50).1) 100 50).2 ≠
    ((⟨2, (0, 0), 1⟩ : LineProcessor).get_mean_line ⟨[1], [0], [0]⟩ 100 50).2 := by
  have hpush1 : pushedTracker ⟨2, (0, 0), 1⟩ ⟨[1], [0], [0]⟩ =
      ⟨[1, 2], [0, 0], [0, 0]⟩ := by
    unfold pushedTracker HistoricalLaneDataTracker.update
    rw [if_pos (by norm_num)]
    norm_num [number_of_slopes_to_remember]
  have hlatest1 : (⟨[1, 2], [0, 0], [0, 0]⟩ :
      HistoricalLaneDataTracker).get_latest_lane_data = some (0, 0, 3 / 2) := by
    rw [get_latest_of_nonempty _ (by simp) (by simp) (by simp)]
    norm_num
  have hout1 : (⟨2, (0, 0), 1⟩ : LineProcessor).get_mean_line
      ⟨[1], [0], [0]⟩ 100 50 =
      (⟨[1, 2], [0, 0], [0, 0]⟩, some (66, 100, 33, 50)) := by
    have hb : find_x2_from_slope 0 0 100 (3 / 2) = 66 := by
      unfold find_x2_from_slope pyInt
      rw [if_pos (by norm_num)]
      rw [show ((0 : ℝ) - (0 - 100) / (3 / 2)) = 200 / 3 by norm_num]
      rw [Int.floor_eq_iff]
      norm_num
    have ht : find_x2_from_slope 0 0 50 (3 / 2) = 33 := by
      unfold find_x2_from_slope pyInt
      rw [if_pos (by norm_num)]
      rw [show ((0 : ℝ) - (0 - 50) / (3 / 2)) = 100 / 3 by norm_num]
      rw [Int.floor_eq_iff]
      norm_num
    unfold LineProcessor.get_mean_line
    rw [hpush1, hlatest1]
    dsimp only
    rw [hb, ht]
  have hpush2 : pushedTracker ⟨2, (0, 0), 1⟩ ⟨[1, 2], [0, 0], [0, 0]⟩ =
      ⟨[1, 2, 2], [0, 0, 0], [0, 0, 0]⟩ := by
    unfold pushedTracker HistoricalLaneDataTracker.update
    rw [if_pos (by norm_num)]
    norm_num [number_of_slopes_to_remember]
  have hlatest2 : (⟨[1, 2, 2], [0, 0, 0], [0, 0, 0]⟩ :
      HistoricalLaneDataTracker).get_latest_lane_data = some (0, 0, 5 / 3) := by
    rw [get_latest_of_nonempty _ (by simp) (by simp) (by simp)]
    norm_num
  have hout2 : (⟨2, (0, 0), 1⟩ : LineProcessor).get_mean_line
      ⟨[1, 2], [0, 0], [0, 0]⟩ 100 50 =
      (⟨[1, 2, 2], [0, 0, 0], [0, 0, 0]⟩, some (60, 100, 30, 50)) := by
    have hb : find_x2_from_slope 0 0 100 (5 / 3) = 60 := by
      unfold find_x2_from_slope pyInt
      rw [if_pos (by norm_num)]
      rw [show ((0 : ℝ) - (0 - 100) / (5 / 3)) = 60 by norm_num]
      rw [show ((60 : ℝ)) = ((60 : ℤ) : ℝ) by norm_num, Int.floor_intCast]
    have ht : find_x2_from_slope 0 0 50 (5 / 3) = 30 := by
      unfold find_x2_from_slope pyInt
      rw [if_pos (by norm_num)]
      rw [show ((0 : ℝ) - (0 - 50) / (5 / 3)) = 30 by norm_num]
      rw [show ((30 : ℝ)) = ((30 : ℤ) : ℝ) by norm_num, Int.floor_intCast]
    unfold LineProcessor.get_mean_line
    rw [hpush2, hlatest2]
    dsimp only
    rw [hb, ht]
  rw [hout1]
  dsimp only
  rw [hout2]
  dsimp only
  intro h
  simp only [Option.some.injEq, Prod.mk.injEq] at h
  exact absurd h.1 (by decide)

/-- C9 (amended): reconstruction is repeatable when the frame pushed
nothing: for an empty accumulator (`total_length = 0`) two successive
`get_mean_line` calls return identical coordinates, the history being
left unchanged in between. -/
theorem reconstruct_repeatable_without_push (p : LineProcessor)
    (t : HistoricalLaneDataTracker) (yb yt : ℝ) (h0 : p.total_length = 0) :
    (p.get_mean_line ((p.get_mean_line t yb yt).1) yb yt).2 =
      (p.get_mean_line t yb yt).2 ∧
    (p.get_mean_line t yb yt).1 = t := by
  have h1 : (p.get_mean_line t yb yt).1 = t := by
    rw [get_mean_line_fst]
    unfold pushedTracker
    rw [if_neg (fun hne => hne h0)]
  exact ⟨by rw [h1], h1⟩

/-- Witness for C9 (amended): the empty accumulator against a one-entry
history returns the same line on both successive calls. -/
theorem reconstruct_repeatable_without_push_witness :
    LineProcessor.init.total_length = 0 ∧
    (LineProcessor.init.get_mean_line
        ((LineProcessor.init.get_mean_line ⟨[-1], [5], [95]⟩ 100 50).1) 100 50).2 =
      (LineProcessor.init.get_mean_line ⟨[-1], [5], [95]⟩ 100 50).2 ∧
    (LineProcessor.init.get_mean_line ⟨[-1], [5], [95]⟩ 100 50).1 =
      (⟨[-1], [5], [95]⟩ : HistoricalLaneDataTracker) :=
  ⟨rfl,
   reconstruct_repeatable_without_push LineProcessor.init ⟨[-1], [5], [95]⟩ 100 50 rfl⟩

/-! ### The concrete left-lane scenario `(0,100,10,90)` -/

lemma lineSlope_left_example : lineSlope 0 100 10 90 = -1 := by
  unfold lineSlope
  rw [if_neg (by norm_num)]
  norm_num

lemma classify_single_left :
    classifyLines [⟨0, 100, 10, 90⟩] =
      (LineProcessor.init.add_line 0 100 10 90 (-1), LineProcessor.init) := by
  unfold classifyLines
  rw [List.foldl_cons, List.foldl_nil]
  unfold classifyStep
  dsimp only
  rw [lineSlope_left_example]
  rw [if_pos (by norm_num)]

lemma segLength_left_example : segLength 0 100 10 90 = Real.sqrt 200 := by
  unfold segLength
  norm_num

lemma add_line_left_example_total :
    (LineProcessor.init.add_line 0 100 10 90 (-1)).total_length ≠ 0 := by
  unfold LineProcessor.add_line LineProcessor.init
  dsimp only
  rw [segLength_left_example, zero_add]
  positivity

lemma pushed_single_left :
    pushedTracker (LineProcessor.init.add_line 0 100 10 90 (-1)) emptyTracker =
      ⟨[-1], [5], [95]⟩ := by
  unfold pushedTracker
  rw [if_pos add_line_left_example_total]
  unfold HistoricalLaneDataTracker.update emptyTracker
  unfold LineProcessor.add_line LineProcessor.init weighted_mid_point
  dsimp only
  rw [segLength_left_example]
  have h0 : Real.sqrt 200 ≠ 0 := by positivity
  rw [if_neg (by simp [number_of_slopes_to_remember])]
  simp only [List.nil_append, HistoricalLaneDataTracker.mk.injEq, List.cons.injEq,
    and_true, true_and]
  refine ⟨?_, ?_, ?_⟩ <;> field_simp <;> ring

/-- C5: whenever the history read inside `get_mean_line` has mean
`(mean_x, mean_y, mean_slope)` with `mean_slope ≠ 0`, the returned line
is `(int(mean_x - (mean_y - bottom_y)/mean_slope), bottom_y,
int(mean_x - (mean_y - top_y)/mean_slope), top_y)`; in particular the
single left segment `(0,100,10,90)` against a fresh empty history with
bounds `bottom_y = 100`, `top_y = 50` gives `bottom_x = 0`, `top_x = 50`. -/
theorem reconstruction_from_history_mean (p : LineProcessor)
    (t : HistoricalLaneDataTracker) (yb yt mx my ms : ℝ)
    (_hms : ms ≠ 0)
    (h : (pushedTracker p t).get_latest_lane_data = some (mx, my, ms)) :
    (p.get_mean_line t yb yt).2 =
      some (pyInt (mx - (my - yb) / ms), yb, pyInt (mx - (my - yt) / ms), yt) ∧
    (classifyLines [⟨0, 100, 10, 90⟩]).1.get_mean_line emptyTracker 100 50 =
      (⟨[-1], [5], [95]⟩, some (0, 100, 50, 50)) := by
  constructor
  · rw [get_mean_line_snd p t yb yt mx my ms h]
    unfold find_x2_from_slope
    rfl
  · have hlat : (⟨[-1], [5], [95]⟩ :
        HistoricalLaneDataTracker).get_latest_lane_data = some (5, 95, -1) := by
      rw [get_latest_of_nonempty _ (by simp) (by simp) (by simp)]
      norm_num
    have hb : find_x2_from_slope 5 95 100 (-1) = 0 := by
      unfold find_x2_from_slope pyInt
      rw [show ((5 : ℝ) - (95 - 100) / (-1)) = 0 by norm_num]
      rw [if_pos le_rfl, Int.floor_zero]
    have ht : find_x2_from_slope 5 95 50 (-1) = 50 := by
      unfold find_x2_from_slope pyInt
      rw [show ((5 : ℝ) - (95 - 50) / (-1)) = 50 by norm_num]
      rw [if_pos (by norm_num)]
      rw [show ((50 : ℝ)) = ((50 : ℤ) : ℝ) by norm_num, Int.floor_intCast]
    rw [classify_single_left]
    dsimp only
    unfold LineProcessor.get_mean_line
    rw [pushed_single_left, hlat]
    dsimp only
    rw [hb, ht]

/-- Witness for C5: the one-entry history `(5, 95, -1)` read by
`get_mean_line` with bounds 100 and 50 returns the reconstructed
endpoints given by the formula. -/
theorem reconstruction_from_history_mean_witness :
    ((-1 : ℝ) ≠ 0) ∧
    (pushedTracker LineProcessor.init ⟨[-1], [5], [95]⟩).get_latest_lane_data =
      some (5, 95, -1) ∧
    (LineProcessor.init.get_mean_line ⟨[-1], [5], [95]⟩ 100 50).2 =
      some (pyInt ((5 : ℝ) - ((95 : ℝ) - 100) / (-1)), 100,
            pyInt ((5 : ℝ) - ((95 : ℝ) - 50) / (-1)), 50) := by
  have hpush : pushedTracker LineProcessor.init ⟨[-1], [5], [95]⟩ =
      ⟨[-1], [5], [95]⟩ := by
    unfold pushedTracker
    rw [if_neg (fun hne => hne rfl)]
  have hlat : (pushedTracker LineProcessor.init
      ⟨[-1], [5], [95]⟩).get_latest_lane_data = some (5, 95, -1) := by
    rw [hpush, get_latest_of_nonempty _ (by simp) (by simp) (by simp)]
    norm_num
  exact ⟨by norm_num, hlat,
    (reconstruction_from_history_mean LineProcessor.init ⟨[-1], [5], [95]⟩
      100 50 5 95 (-1) (by norm_num) hlat).1⟩

/-! ### Sign of the left accumulator -/

lemma lineSlope_neg_segment_length_pos (s : Segment)
    (hneg : lineSlope s.x1 s.y1 s.x2 s.y2 < 0) :
    0 < segLength s.x1 s.y1 s.x2 s.y2 := by
  have hx : s.x2 - s.x1 ≠ 0 := by
    intro h0
    unfold lineSlope at hneg
    rw [if_pos h0] at hneg
    norm_num at hneg
  unfold segLength
  apply Real.sqrt_pos.mpr
  have h1 : 0 < (s.x2 - s.x1) ^ 2 := by positivity
  nlinarith [sq_nonneg (s.y2 - s.y1)]

lemma classify_left_sign_invariant (lines : List Segment)
    (ps : LineProcessor × LineProcessor)
    (h : 0 ≤ ps.1.total_length ∧
      (ps.1.total_length = 0 → ps.1.sum_of_slopes = 0) ∧
      (ps.1.total_length ≠ 0 → ps.1.sum_of_slopes < 0)) :
    0 ≤ (lines.foldl classifyStep ps).1.total_length ∧
    ((lines.foldl classifyStep ps).1.total_length = 0 →
      (lines.foldl classifyStep ps).1.sum_of_slopes = 0) ∧
    ((lines.foldl classifyStep ps).1.total_length ≠ 0 →
      (lines.foldl classifyStep ps).1.sum_of_slopes < 0) := by
  induction lines generalizing ps with
  | nil => simpa using h
  | cons s rest ih =>
      rw [List.foldl_cons]
      apply ih
      unfold classifyStep
      by_cases hneg : lineSlope s.x1 s.y1 s.x2 s.y2 < 0
      · rw [if_pos hneg]
        have hlen := lineSlope_neg_segment_length_pos s hneg
        have hs_le : ps.1.sum_of_slopes ≤ 0 := by
          by_cases ht0 : ps.1.total_length = 0
          · rw [h.2.1 ht0]
          · exact le_of_lt (h.2.2 ht0)
        have hprod : lineSlope s.x1 s.y1 s.x2 s.y2 *
            segLength s.x1 s.y1 s.x2 s.y2 < 0 :=
          mul_neg_of_neg_of_pos hneg hlen
        unfold LineProcessor.add_line
        dsimp only
        have h1 := h.1
        refine ⟨by linarith, fun habs => by linarith, fun _ => by linarith⟩
      · rw [if_neg hneg]
        exact h

lemma get_latest_slope_component (t : HistoricalLaneDataTracker)
    (mx my ms : ℝ) (h : t.get_latest_lane_data = some (mx, my, ms)) :
    ms = t.slopes.sum / t.slopes.length := by
  unfold HistoricalLaneDataTracker.get_latest_lane_data listMean at h
  by_cases h1 : t.mean_x_values.isEmpty <;> by_cases h2 : t.mean_y_values.isEmpty <;>
    by_cases h3 : t.slopes.isEmpty <;> simp [h1, h2, h3] at h
  exact h.2.2.symm

lemma list_sum_neg (l : List ℝ) (hne : l ≠ []) (h : ∀ x ∈ l, x < 0) :
    l.sum < 0 := by
  induction l with
  | nil => exact absurd rfl hne
  | cons a l ih =>
      rw [List.sum_cons]
      rcases eq_or_ne l [] with rfl | hl
      · simpa using h a (by simp)
      · have h2 := ih hl (fun x hx => h x (List.mem_cons_of_mem a hx))
        have ha := h a (List.mem_cons_self a l)
        linarith

/-- C10: every per-frame aggregate the left lane pushes has a strictly
negative slope component (left segments have negative slope and positive
length); a history holding only negative slopes has a strictly negative
— hence nonzero — mean slope, so the left lane's `find_x2_from_slope`
divisor is never zero; the right lane enjoys no such guarantee: a
horizontal segment gives it a mean slope of exactly zero. -/
theorem left_mean_slope_negative_right_can_vanish :
    (∀ lines : List Segment,
      (classifyLines lines).1.total_length ≠ 0 →
      (classifyLines lines).1.sum_of_slopes /
        (classifyLines lines).1.total_length < 0) ∧
    (∀ l : List (ℝ × ℝ × ℝ), (∀ v ∈ l, v.2.2 < 0) →
      ∀ s ∈ (pushAll emptyTracker l).slopes, s < 0) ∧
    (∀ t : HistoricalLaneDataTracker, t.slopes ≠ [] →
      (∀ s ∈ t.slopes, s < 0) →
      ∀ mx my ms, t.get_latest_lane_data = some (mx, my, ms) →
        ms < 0 ∧ ms ≠ 0) ∧
    ((classifyLines [⟨0, 0, 10, 0⟩]).2.total_length ≠ 0 ∧
      (classifyLines [⟨0, 0, 10, 0⟩]).2.sum_of_slopes /
        (classifyLines [⟨0, 0, 10, 0⟩]).2.total_length = 0) := by
  refine ⟨?_, ?_, ?_, ?_⟩
  · intro lines hne
    have hinv := classify_left_sign_invariant lines
      (LineProcessor.init, LineProcessor.init)
      ⟨le_refl 0, fun _ => rfl, fun habs => absurd rfl habs⟩
    have hpos : 0 < (classifyLines lines).1.total_length :=
      lt_of_le_of_ne hinv.1 (fun habs => hne habs.symm)
    exact div_neg_of_neg_of_pos (hinv.2.2 hne) hpos
  · intro l hl s hs
    rw [pushAll_empty_window] at hs
    unfold mkTracker at hs
    dsimp only at hs
    rcases List.mem_map.mp hs with ⟨v, hv, rfl⟩
    exact hl v (List.mem_of_mem_drop hv)
  · intro t hne hneg mx my ms h
    have hms : ms = t.slopes.sum / t.slopes.length :=
      get_latest_slope_component t mx my ms h
    have hlen : (0 : ℝ) < t.slopes.length := by
      have := List.length_pos.mpr hne
      exact_mod_cast this
    have : ms < 0 := by
      rw [hms]
      exact div_neg_of_neg_of_pos (list_sum_neg t.slopes hne hneg) hlen
    exact ⟨this, ne_of_lt this⟩
  · have hs0 : lineSlope 0 0 10 0 = 0 := by
      unfold lineSlope
      rw [if_neg (by norm_num)]
      norm_num
    have hcl : classifyLines [⟨0, 0, 10, 0⟩] =
        (LineProcessor.init, LineProcessor.init.add_line 0 0 10 0 0) := by
      unfold classifyLines
      rw [List.foldl_cons, List.foldl_nil]
      unfold classifyStep
      dsimp only
      rw [hs0]
      rw [if_neg (by norm_num)]
    have hL : segLength 0 0 10 0 = 10 := by
      unfold segLength
      rw [show (((0 : ℝ) - 0) ^ 2 + (10 - 0) ^ 2) = 10 ^ 2 by norm_num]
      exact Real.sqrt_sq (by norm_num)
    rw [hcl]
    dsimp only
    unfold LineProcessor.add_line LineProcessor.init
    dsimp only
    rw [hL]
    norm_num

/-- Witness for C10: the single left segment `(0,100,10,90)` yields a
left accumulator with nonzero total length and strictly negative mean
slope, and the one-entry all-negative history `[-1]` yields a strictly
negative mean slope. -/
theorem left_mean_slope_negative_right_can_vanish_witness :
    (classifyLines [⟨0, 100, 10, 90⟩]).1.total_length ≠ 0 ∧
    (classifyLines [⟨0, 100, 10, 90⟩]).1.sum_of_slopes /
      (classifyLines [⟨0, 100, 10, 90⟩]).1.total_length < 0 ∧
    (⟨[-1], [5], [95]⟩ : HistoricalLaneDataTracker).get_latest_lane_data =
      some (5, 95, -1) ∧
    ((-1 : ℝ) < 0 ∧ (-1 : ℝ) ≠ 0) := by
  have hne : (classifyLines [⟨0, 100, 10, 90⟩]).1.total_length ≠ 0 := by
    rw [classify_single_left]
    exact add_line_left_example_total
  have hlat : (⟨[-1], [5], [95]⟩ :
      HistoricalLaneDataTracker).get_latest_lane_data = some (5, 95, -1) := by
    rw [get_latest_of_nonempty _ (by simp) (by simp) (by simp)]
    norm_num
  refine ⟨hne, left_mean_slope_negative_right_can_vanish.1 [⟨0, 100, 10, 90⟩] hne,
    hlat, ?_⟩
  exact left_mean_slope_negative_right_can_vanish.2.2.1 ⟨[-1], [5], [95]⟩
    (by simp) (by intro x hx; simp at hx; rw [hx]; norm_num) 5 95 (-1) hlat

end LaneLines
